import Mathlib

/-!
Shallow embedding of the swap-quote core of the `raydium-swap` repository
(CLMM off-chain swap simulation), together with theorems settling the
spec claims about it.

Conventions of the embedding:
* Rust `u64`/`u128` values are modelled as `Nat`; where the source uses
  `checked_*` arithmetic the overflow/underflow test is explicit and the
  `.unwrap()` panic is modelled as the `RErr.panic` error variant.
* Rust `i32`/`i128` values are modelled as `Int` with Rust's
  truncated division (`Int.tdiv` / `Int.tmod`); all values handled by the
  embedded functions stay far below the `i32` overflow boundary, where
  the two semantics agree.
* A Rust function returning `Result<T, E>` is modelled as
  `Except RErr T`; an `Err` value actually returned by the source is
  `RErr.msg`, while a `panic!`/`.unwrap()` abort is `RErr.panic`.
* Solana `Pubkey` values are opaque identifiers compared only for
  equality; they are modelled as `Nat`.
-/

set_option maxRecDepth 8192

/-- Failure mode of an embedded Rust computation: `msg` is a typed
`Err(&'static str)` value returned to the caller, `panic` models a
`panic!` / `.unwrap()` process abort. -/
inductive RErr where
  | msg : String → RErr
  | panic : String → RErr
deriving DecidableEq

/-- Result of an embedded fallible Rust computation. -/
abbrev RResult (α : Type) := Except RErr α

instance {ε α : Type} [DecidableEq ε] [DecidableEq α] : DecidableEq (Except ε α) := fun x y =>
  match x, y with
  | .ok a, .ok b =>
    if h : a = b then isTrue (h ▸ rfl) else isFalse (fun hh => h (Except.ok.inj hh))
  | .error e, .error f =>
    if h : e = f then isTrue (h ▸ rfl) else isFalse (fun hh => h (Except.error.inj hh))
  | .ok _, .error _ => isFalse (fun hh => Except.noConfusion hh)
  | .error _, .ok _ => isFalse (fun hh => Except.noConfusion hh)

/-- U64_MAX_SUCC: 2^64, the number of `u64` values. -/
def U64_SIZE : Nat := 2 ^ 64

/-- U128_MAX_SUCC: 2^128, the number of `u128` values. -/
def U128_SIZE : Nat := 2 ^ 128

/-- TEN_THOUSAND constant from `common_types.rs` (`u128`). -/
def TEN_THOUSAND : Nat := 10000

/-- Modelled from the spec: fixed `MIN_TICK` bound of the tick range
(`libraries/tick_math.rs` is not part of the provided sources; the value
is the one the commented-out `MIN_TICK_ARRAY_START_INDEX` in
`tick_array.rs` is derived from). -/
def MIN_TICK : Int := -443636

/-- Modelled from the spec: fixed `MAX_TICK` bound of the tick range
(`libraries/tick_math.rs` is not part of the provided sources). -/
def MAX_TICK : Int := 443636

/-- Modelled from the spec: fixed lower sqrt-price bound
`MIN_SQRT_PRICE_X64` corresponding to `MIN_TICK`
(`libraries/tick_math.rs` is not part of the provided sources). -/
def MIN_SQRT_PRICE_X64 : Nat := 4295048016

/-- Modelled from the spec: fixed upper sqrt-price bound
`MAX_SQRT_PRICE_X64` corresponding to `MAX_TICK`
(`libraries/tick_math.rs` is not part of the provided sources). -/
def MAX_SQRT_PRICE_X64 : Nat := 79226673521066979257578248091

/-- Embeds `amount_with_slippage` (`common/common_utils.rs:18`): scales a
`u64` amount by `(10000 + bps)/10000` (`up_towards`) or
`(10000 - bps)/10000`, in `u128` checked arithmetic, converting back to
`u64` with a range check that returns `Err` instead of wrapping.  Inputs
are the `u64` values of `amount` and `slippage_bps` (callers guarantee
`< 2^64`); the `checked_div` by the non-zero constant `TEN_THOUSAND`
cannot fail and is left implicit. -/
def amount_with_slippage (amount slippage_bps : Nat) (up_towards : Bool) : RResult Nat :=
  if up_towards then
    if U128_SIZE ≤ slippage_bps + TEN_THOUSAND then .error (.panic "checked_add") else
    if U128_SIZE ≤ amount * (slippage_bps + TEN_THOUSAND) then .error (.panic "checked_mul") else
    let q := amount * (slippage_bps + TEN_THOUSAND) / TEN_THOUSAND
    if q < U64_SIZE then .ok q else .error (.msg "failed to read keypair from")
  else
    if TEN_THOUSAND < slippage_bps then .error (.panic "checked_sub") else
    if U128_SIZE ≤ amount * (TEN_THOUSAND - slippage_bps) then .error (.panic "checked_mul") else
    let q := amount * (TEN_THOUSAND - slippage_bps) / TEN_THOUSAND
    if q < U64_SIZE then .ok q else .error (.msg "failed to read keypair from")

/-- Embeds `tick_with_spacing` (`clmm/clmm_math.rs:29`): truncated
division of `tick` by `tick_spacing`, adjusted one step down when the
tick is negative with a non-zero remainder, then multiplied back. -/
def tick_with_spacing (tick tick_spacing : Int) : Int :=
  let compressed := tick.tdiv tick_spacing
  let compressed := if tick < 0 ∧ tick.tmod tick_spacing ≠ 0 then compressed - 1 else compressed
  compressed * tick_spacing

/-- TICK_ARRAY_SIZE constant (`states/tick_array.rs`). -/
def TICK_ARRAY_SIZE : Int := 60

/-- Embeds `TickArrayState::tick_count` (`states/tick_array.rs:244`):
number of ticks covered by one tick array. -/
def TickArrayState.tick_count (tick_spacing : Nat) : Int :=
  TICK_ARRAY_SIZE * (tick_spacing : Int)

/-- Embeds `TickArrayState::get_array_start_index`
(`states/tick_array.rs:223`): start index of the tick array containing
an arbitrary tick, rounding toward negative infinity. -/
def TickArrayState.get_array_start_index (tick_index : Int) (tick_spacing : Nat) : Int :=
  let ticks_in_array := TickArrayState.tick_count tick_spacing
  let start := tick_index.tdiv ticks_in_array
  let start :=
    if tick_index < 0 ∧ tick_index.tmod ticks_in_array ≠ 0 then start - 1 else start
  start * ticks_in_array

/-- Embeds `TickState` (`states/tick_array.rs:266`); the fee-growth and
reward accumulators are carried but uninvolved in the swap path. -/
structure TickState where
  tick : Int := 0
  liquidity_net : Int := 0
  liquidity_gross : Nat := 0
  fee_growth_outside_0_x64 : Nat := 0
  fee_growth_outside_1_x64 : Nat := 0
deriving DecidableEq

/-- Embeds `TickState::is_initialized` (`states/tick_array.rs:374`). -/
def TickState.is_initialized (t : TickState) : Bool :=
  t.liquidity_gross ≠ 0

/-- Embeds `TickArrayState` (`states/tick_array.rs:14`); the 60 tick
slots are carried as a list (the embedded scans touch indices 0..59
only, like the fixed-size Rust array). -/
structure TickArrayState where
  pool_id : Nat := 0
  start_tick_index : Int
  ticks : List TickState
  initialized_tick_count : Nat := 0
deriving DecidableEq

/-- Descending scan of the tick slots used by `first_initialized_tick`
and `next_initialized_tick` (`while i >= 0` loop, structural in the
offset). -/
def TickArrayState.scanDesc (ticks : List TickState) : Nat → Option TickState
  | 0 =>
    if (ticks.getD 0 {}).is_initialized then some (ticks.getD 0 {}) else none
  | o + 1 =>
    if (ticks.getD (o + 1) {}).is_initialized then some (ticks.getD (o + 1) {})
    else TickArrayState.scanDesc ticks o

/-- Ascending scan of the tick slots (`while i < TICK_ARRAY_SIZE` loop);
`fuel` counts the remaining slots, keeping the recursion structural. -/
def TickArrayState.scanAsc (ticks : List TickState) : Nat → Nat → Option TickState
  | 0, _ => none
  | fuel + 1, o =>
    if (60 : Nat) ≤ o then none
    else if (ticks.getD o {}).is_initialized then some (ticks.getD o {})
    else TickArrayState.scanAsc ticks fuel (o + 1)

/-- Embeds `TickArrayState::first_initialized_tick`
(`states/tick_array.rs:155`): directional scan for the first slot with
non-zero gross liquidity; an empty scan is the `InvalidTickArray`
error. -/
def TickArrayState.first_initialized_tick (a : TickArrayState) (zero_for_one : Bool) :
    RResult TickState :=
  let r := if zero_for_one then TickArrayState.scanDesc a.ticks 59
           else TickArrayState.scanAsc a.ticks 60 0
  match r with
  | some t => .ok t
  | none => .error (.msg "InvalidTickArray")

/-- Embeds `TickArrayState::next_initialized_tick`
(`states/tick_array.rs:179`): returns `Ok(None)` when the tick array
does not cover `current_tick_index`, otherwise scans from the slot
containing it (exclusive upward for increasing price, inclusive
downward for decreasing price).  The source's return type
`Result<Option<&mut TickState>>` never carries an `Err`. -/
def TickArrayState.next_initialized_tick (a : TickArrayState) (current_tick_index : Int)
    (tick_spacing : Nat) (zero_for_one : Bool) : RResult (Option TickState) :=
  if TickArrayState.get_array_start_index current_tick_index tick_spacing
      ≠ a.start_tick_index then
    .ok none
  else
    let offset_in_array := (current_tick_index - a.start_tick_index).tdiv (tick_spacing : Int)
    if zero_for_one then
      if offset_in_array < 0 then .ok none
      else .ok (TickArrayState.scanDesc a.ticks offset_in_array.toNat)
    else
      .ok (TickArrayState.scanAsc a.ticks 60 (offset_in_array + 1).toNat)

/-- Direction/vault information produced by the mint-matching step of
`calculate_swap_change` (`clmm/clmm_utils.rs:98`). -/
structure SwapDirectionInfo where
  zero_for_one : Bool
  input_vault : Nat
  output_vault : Nat
  input_vault_mint : Nat
  output_vault_mint : Nat
  input_token_program : Nat
  output_token_program : Nat
deriving DecidableEq

/-- Embeds the mint-matching step of `calculate_swap_change`
(`clmm/clmm_utils.rs:98-128`): the user's input-token mint is compared
against the pool's two mints to pick the swap direction and the
input/output vault, mint and token-program identifiers; a mint matching
neither side hits the source's `panic!("input tokens not match pool
vaults")`. -/
def calculate_swap_change_direction (user_input_mint : Nat)
    (token_mint_0 token_mint_1 token_vault_0 token_vault_1 : Nat)
    (mint0_token_program mint1_token_program : Nat) : RResult SwapDirectionInfo :=
  if user_input_mint = token_mint_0 then
    .ok ⟨true, token_vault_0, token_vault_1, token_mint_0, token_mint_1,
         mint0_token_program, mint1_token_program⟩
  else if user_input_mint = token_mint_1 then
    .ok ⟨false, token_vault_1, token_vault_0, token_mint_1, token_mint_0,
         mint1_token_program, mint0_token_program⟩
  else
    .error (.panic "input tokens not match pool vaults")

/-- MAX_FEE_BASIS_POINTS of the Token-2022 transfer-fee extension. -/
def MAX_FEE_BASIS_POINTS : Nat := 10000

/-- ONE_IN_BASIS_POINTS of the Token-2022 transfer-fee arithmetic. -/
def ONE_IN_BASIS_POINTS : Nat := 10000

/-- One epoch-scoped transfer-fee schedule of the Token-2022
transfer-fee extension (fields are `u64`/`u16` values). -/
structure TransferFee where
  epoch : Nat
  maximum_fee : Nat
  transfer_fee_basis_points : Nat
deriving DecidableEq

/-- Transfer-fee extension state of a mint: the older and newer fee
schedules. -/
structure TransferFeeConfig where
  older_transfer_fee : TransferFee
  newer_transfer_fee : TransferFee
deriving DecidableEq

/-- Embeds `TransferFeeConfig::get_epoch_fee` of the `spl_token_2022`
dependency: the newer schedule applies from its epoch on. -/
def TransferFeeConfig.get_epoch_fee (c : TransferFeeConfig) (epoch : Nat) : TransferFee :=
  if c.newer_transfer_fee.epoch ≤ epoch then c.newer_transfer_fee else c.older_transfer_fee

/-- Embeds `TransferFee::calculate_fee` of the `spl_token_2022`
dependency: `ceil(amount * bps / 10000)` capped at `maximum_fee`, with
zero-rate and zero-amount short circuits; `u128` intermediate
arithmetic with checked multiplication. -/
def TransferFee.calculate_fee (f : TransferFee) (pre_fee_amount : Nat) : Option Nat :=
  if f.transfer_fee_basis_points = 0 ∨ pre_fee_amount = 0 then some 0
  else
    let numerator := pre_fee_amount * f.transfer_fee_basis_points
    if U128_SIZE ≤ numerator then none else
    let raw_fee := (numerator + ONE_IN_BASIS_POINTS - 1) / ONE_IN_BASIS_POINTS
    let fee := min raw_fee f.maximum_fee
    if fee < U64_SIZE then some fee else none

/-- Embeds `TransferFee::calculate_pre_fee_amount` of the
`spl_token_2022` dependency: inverts `calculate_fee`, saturating at the
maximum fee. -/
def TransferFee.calculate_pre_fee_amount (f : TransferFee) (post_fee_amount : Nat) :
    Option Nat :=
  if f.transfer_fee_basis_points = 0 then some post_fee_amount
  else if post_fee_amount = 0 then some 0
  else if f.transfer_fee_basis_points = ONE_IN_BASIS_POINTS then
    if f.maximum_fee + post_fee_amount < U64_SIZE then some (f.maximum_fee + post_fee_amount)
    else none
  else
    let numerator := post_fee_amount * ONE_IN_BASIS_POINTS
    if U128_SIZE ≤ numerator then none else
    let denominator := ONE_IN_BASIS_POINTS - f.transfer_fee_basis_points
    let raw_pre_fee_amount := (numerator + denominator - 1) / denominator
    if raw_pre_fee_amount < post_fee_amount then none
    else if f.maximum_fee ≤ raw_pre_fee_amount - post_fee_amount then
      if f.maximum_fee + post_fee_amount < U64_SIZE then some (post_fee_amount + f.maximum_fee)
      else none
    else if raw_pre_fee_amount < U64_SIZE then some raw_pre_fee_amount else none

/-- Embeds `TransferFeeConfig::calculate_epoch_fee` of the
`spl_token_2022` dependency. -/
def TransferFeeConfig.calculate_epoch_fee (c : TransferFeeConfig) (epoch pre_fee_amount : Nat) :
    Option Nat :=
  (c.get_epoch_fee epoch).calculate_fee pre_fee_amount

/-- Embeds `TransferFeeConfig::calculate_inverse_epoch_fee` of the
`spl_token_2022` dependency. -/
def TransferFeeConfig.calculate_inverse_epoch_fee (c : TransferFeeConfig)
    (epoch post_fee_amount : Nat) : Option Nat :=
  ((c.get_epoch_fee epoch).calculate_pre_fee_amount post_fee_amount).bind
    fun pre => (c.get_epoch_fee epoch).calculate_fee pre

/-- Embeds `get_transfer_fee` (`common/common_utils.rs:194`): the
per-epoch transfer fee for an input amount; a mint without the
transfer-fee extension (modelled as `none`) pays no fee; the inner
`Option` is `.unwrap()`ed by the source. -/
def get_transfer_fee (cfg : Option TransferFeeConfig) (epoch pre_fee_amount : Nat) :
    RResult Nat :=
  match cfg with
  | none => .ok 0
  | some c =>
    match c.calculate_epoch_fee epoch pre_fee_amount with
    | some fee => .ok fee
    | none => .error (.panic "calculate_epoch_fee unwrap")

/-- Embeds `get_transfer_inverse_fee` (`common/common_utils.rs:173`):
the fee to add on top of a desired post-fee output; a basis-point rate
pinned at `MAX_FEE_BASIS_POINTS` short-circuits to the schedule's fixed
`maximum_fee`. -/
def get_transfer_inverse_fee (cfg : Option TransferFeeConfig) (epoch post_fee_amount : Nat) :
    RResult Nat :=
  match cfg with
  | none => .ok 0
  | some c =>
    let transfer_fee := c.get_epoch_fee epoch
    if transfer_fee.transfer_fee_basis_points = MAX_FEE_BASIS_POINTS then
      .ok transfer_fee.maximum_fee
    else
      match c.calculate_inverse_epoch_fee epoch post_fee_amount with
      | some fee => .ok fee
      | none => .error (.panic "calculate_inverse_epoch_fee unwrap")

/-- Modelled from the spec: the fixed per-tick sqrt-price step of the
tick to sqrt-price conversion model below.  `libraries/tick_math.rs` is
not part of the provided sources; the spec fixes only that
`get_sqrt_price_at_tick` / `get_tick_at_sqrt_price` are monotonic,
mutually inverse on `[MIN_TICK, MAX_TICK]` and bounded by
`MIN_SQRT_PRICE_X64` / `MAX_SQRT_PRICE_X64`, so the model realises that
contract with an exactly invertible strictly increasing map. -/
def TICK_PRICE_STEP : Nat :=
  (MAX_SQRT_PRICE_X64 - MIN_SQRT_PRICE_X64) / 887272

/-- Modelled from the spec: raw value of the `get_sqrt_price_at_tick`
model (missing `libraries/tick_math.rs`): strictly increasing in the
tick, `MIN_SQRT_PRICE_X64` at `MIN_TICK`, bounded by
`MAX_SQRT_PRICE_X64` at `MAX_TICK`. -/
def sqrtPriceAtTickRaw (tick : Int) : Nat :=
  MIN_SQRT_PRICE_X64 + (tick - MIN_TICK).toNat * TICK_PRICE_STEP

/-- Modelled from the spec: raw value of the `get_tick_at_sqrt_price`
model (missing `libraries/tick_math.rs`): the floor tick whose model
sqrt price is at most the given sqrt price. -/
def tickAtSqrtPriceRaw (sqrt_price_x64 : Nat) : Int :=
  MIN_TICK + ((sqrt_price_x64 - MIN_SQRT_PRICE_X64) / TICK_PRICE_STEP : Nat)

/-- Modelled from the spec: `get_sqrt_price_at_tick` (missing
`libraries/tick_math.rs`); ticks outside `[MIN_TICK, MAX_TICK]` are the
error case of the source's `Result`. -/
def get_sqrt_price_at_tick (tick : Int) : Option Nat :=
  if MIN_TICK ≤ tick ∧ tick ≤ MAX_TICK then some (sqrtPriceAtTickRaw tick) else none

/-- Modelled from the spec: `get_tick_at_sqrt_price` (missing
`libraries/tick_math.rs`); sqrt prices outside
`[MIN_SQRT_PRICE_X64, MAX_SQRT_PRICE_X64]` are the error case of the
source's `Result`. -/
def get_tick_at_sqrt_price (sqrt_price_x64 : Nat) : Option Int :=
  if MIN_SQRT_PRICE_X64 ≤ sqrt_price_x64 ∧ sqrt_price_x64 ≤ MAX_SQRT_PRICE_X64 then
    some (tickAtSqrtPriceRaw sqrt_price_x64)
  else none

/-- Modelled from the spec: `add_delta` of the missing
`libraries/liquidity_math.rs`: checked signed delta addition on a
`u128` liquidity value (spec section 8 fixes its semantics, for example
`add_delta (1000000) (200000) = 1200000`). -/
def add_delta (l : Nat) (delta : Int) : Option Nat :=
  if 0 ≤ delta then
    if l + delta.toNat < U128_SIZE then some (l + delta.toNat) else none
  else
    if delta.natAbs ≤ l then some (l - delta.natAbs) else none

/-- TICK_ARRAY_BITMAP_SIZE: width in bits of one bitmap word group
(modelled from the spec: each bank of the extension is 512 bits wide;
the constant lives in the missing `libraries/tick_array_bit_map.rs`). -/
def TICK_ARRAY_BITMAP_SIZE : Nat := 512

/-- U512_SIZE: 2^512, the number of `U512` values; a `U512` bitmap bank
is modelled as a `Nat` below this bound. -/
def U512_SIZE : Nat := 2 ^ 512

/-- Modelled from the spec: `max_tick_in_tickarray_bitmap` of the
missing `libraries/tick_array_bit_map.rs`: the tick span covered by one
512-bit bitmap bank (512 tick-array windows of `60 * spacing` ticks). -/
def max_tick_in_tickarray_bitmap (tick_spacing : Nat) : Int :=
  (TICK_ARRAY_BITMAP_SIZE : Int) * TickArrayState.tick_count tick_spacing

/-- Modelled from the spec: `get_bitmap_tick_boundary` of the missing
`libraries/tick_array_bit_map.rs`: the tick range
`[min_boundary, max_boundary)` of the bitmap bank holding the given
tick-array start index. -/
def get_bitmap_tick_boundary (tick_array_start_index : Int) (tick_spacing : Nat) :
    Int × Int :=
  let ticks_in_one_bitmap := max_tick_in_tickarray_bitmap tick_spacing
  let m := (tick_array_start_index.natAbs : Int).tdiv ticks_in_one_bitmap
  let m :=
    if tick_array_start_index < 0 ∧ (tick_array_start_index.natAbs : Int).tmod ticks_in_one_bitmap ≠ 0 then
      m + 1
    else m
  let min_value := ticks_in_one_bitmap * m
  if tick_array_start_index < 0 then (-min_value, -min_value + ticks_in_one_bitmap)
  else (min_value, min_value + ticks_in_one_bitmap)

/-- Embeds `TickArrayBitmapExtension::tick_array_offset_in_bitmap`
(`states/tickarray_bitmap_extension.rs:218`): bit position of a
tick-array start index inside its 512-bit bank (reversed order on the
negative side).  The source's `i32` result is always non-negative, so
it is modelled as `Nat`. -/
def tick_array_offset_in_bitmap (tick_array_start_index : Int) (tick_spacing : Nat) : Nat :=
  let m := tick_array_start_index.natAbs % (max_tick_in_tickarray_bitmap tick_spacing).toNat
  let offset := m / (TickArrayState.tick_count tick_spacing).toNat
  if tick_array_start_index < 0 ∧ m ≠ 0 then TICK_ARRAY_BITMAP_SIZE - offset
  else offset

/-- Bit length of a `Nat` (position of the highest set bit plus one),
computed with an explicit structural fuel so concrete values reduce in
the kernel; `bitlenAux f b` is the bit length for every `b < 2 ^ f`. -/
def bitlenAux : Nat → Nat → Nat
  | 0, _ => 0
  | f + 1, b => if b = 0 then 0 else bitlenAux f (b / 2) + 1

/-- Count of leading zero bits of a `U512` value (the uint crate's
`leading_zeros`, 512 for zero). -/
def u512_leading_zeros (b : Nat) : Nat :=
  512 - bitlenAux 512 b

/-- Count of trailing zero bits, with structural fuel; `tzAux f b` is
the trailing-zero count for every non-zero `b < 2 ^ f` (and `f` when
`b = 0`, matching the uint crate's `trailing_zeros` at width `f`). -/
def tzAux : Nat → Nat → Nat
  | 0, _ => 0
  | f + 1, b => if b % 2 = 1 then 0 else tzAux f (b / 2) + 1

/-- Count of trailing zero bits of a `U512` value (the uint crate's
`trailing_zeros`, 512 for zero). -/
def u512_trailing_zeros (b : Nat) : Nat :=
  tzAux 512 b

/-- Embeds
`TickArrayBitmapExtension::next_initialized_tick_array_in_bitmap`
(`states/tickarray_bitmap_extension.rs:163`): directional bit scan of
one 512-bit bitmap bank; a left shift plus `leading_zeros` for the
decreasing-price direction, a right shift plus `trailing_zeros` for the
increasing one; with no set bit remaining the bank's boundary-most
start index in the scan direction is returned with `found = false`. -/
def next_initialized_tick_array_in_bitmap (tickarray_bitmap : Nat)
    (next_tick_array_start_index : Int) (tick_spacing : Nat) (zero_for_one : Bool) :
    Bool × Int :=
  let boundary := get_bitmap_tick_boundary next_tick_array_start_index tick_spacing
  let off := tick_array_offset_in_bitmap next_tick_array_start_index tick_spacing
  if zero_for_one then
    let offset_bit_map := (tickarray_bitmap <<< (TICK_ARRAY_BITMAP_SIZE - 1 - off)) % U512_SIZE
    if offset_bit_map = 0 then (false, boundary.1)
    else
      let next_bit := u512_leading_zeros offset_bit_map
      (true, next_tick_array_start_index - (next_bit : Int) * TickArrayState.tick_count tick_spacing)
  else
    let offset_bit_map := tickarray_bitmap >>> off
    if offset_bit_map = 0 then (false, boundary.2 - TickArrayState.tick_count tick_spacing)
    else
      let next_bit := u512_trailing_zeros offset_bit_map
      (true, next_tick_array_start_index + (next_bit : Int) * TickArrayState.tick_count tick_spacing)

/-- Per-step result of the constant-liquidity swap-step formula
(`SwapStep` of the missing `libraries/swap_math.rs`). -/
structure SwapStep where
  sqrt_price_next_x64 : Nat
  amount_in : Nat
  amount_out : Nat
  fee_amount : Nat
deriving DecidableEq

/-- Functions of the missing `libraries/` and `states/pool.rs` sources
that `swap_compute` calls: the tick/price conversions, the swap-step
formula, the signed liquidity addition, and the pool-state bitmap
successor `PoolState::next_initialized_tick_array_start_index` (closed
over the pool and bitmap extension, a function of the queried start
index and direction).  `Option` results model the sources' `Result`,
whose error case `swap_compute` `.unwrap()`s.  Theorems about the loop
structure quantify over this record. -/
structure ClmmLib where
  get_sqrt_price_at_tick : Int → Option Nat
  get_tick_at_sqrt_price : Nat → Option Int
  compute_swap_step : Nat → Nat → Nat → Nat → Nat → Bool → Bool → Nat → Option SwapStep
  add_delta : Nat → Int → Option Nat
  next_initialized_tick_array_start_index : Int → Bool → Option (Option Int)

/-- Fields of `PoolState` (`states/pool.rs`, not under the provided
sources) that `swap_compute` reads. -/
structure PoolStateCore where
  tick_current : Int
  tick_spacing : Nat
  liquidity : Nat
  sqrt_price_x64 : Nat
deriving DecidableEq

/-- Embeds `SwapState` (`clmm/clmm_utils.rs:354`). -/
structure SwapState where
  amount_specified_remaining : Nat
  amount_calculated : Nat
  sqrt_price_x64 : Nat
  tick : Int
  liquidity : Nat
deriving DecidableEq

/-- Continuation condition of the `swap_compute` while loop
(`clmm/clmm_utils.rs:370-374`). -/
def swapLoopCond (st : SwapState) (sqrt_price_limit_x64 : Nat) : Bool :=
  st.amount_specified_remaining != 0 && st.sqrt_price_x64 != sqrt_price_limit_x64 &&
  decide (st.tick < MAX_TICK) && decide (MIN_TICK < st.tick)

/-- Embeds one iteration of the `swap_compute` while-loop body
(`clmm/clmm_utils.rs:378-491`), everything between the loop-cap check
and the `loop_count` increment: candidate-tick selection, tick-array
advancement (keyed, as in the source, off the function's original
`current_valid_tick_array_start_index`), target-price clamping, the
swap-step call, the checked amount updates, and the tick
crossing/recomputation.  Returns the updated state, current array,
remaining queue, first-array flag and visited-start-index list. -/
def swapStepBody (lib : ClmmLib) (zero_for_one is_base_input : Bool)
    (trade_fee_rate tick_spacing sqrt_price_limit_x64 : Nat)
    (current_valid_tick_array_start_index : Int)
    (st : SwapState) (tick_array_current : TickArrayState)
    (tick_arrays : List TickArrayState) (tick_match_current_tick_array : Bool)
    (tick_array_start_index_vec : List Int) :
    RResult (SwapState × TickArrayState × List TickArrayState × Bool × List Int) :=
  let sqrt_price_start_x64 := st.sqrt_price_x64
  match tick_array_current.next_initialized_tick st.tick tick_spacing zero_for_one with
  | .error _ => .error (.panic "next_initialized_tick unwrap")
  | .ok nit0 =>
    let step1 : RResult (TickState × Bool) :=
      match nit0 with
      | some ts => .ok (ts, tick_match_current_tick_array)
      | none =>
        if ¬ tick_match_current_tick_array then
          match tick_array_current.first_initialized_tick zero_for_one with
          | .ok ts => .ok (ts, true)
          | .error _ => .error (.panic "first_initialized_tick unwrap")
        else .ok ({}, tick_match_current_tick_array)
    match step1 with
    | .error e => .error e
    | .ok (nit1, tick_match') =>
      let step2 : RResult (TickState × TickArrayState × List TickArrayState × List Int) :=
        if ¬ nit1.is_initialized then
          match lib.next_initialized_tick_array_start_index
              current_valid_tick_array_start_index zero_for_one with
          | none => .error (.panic "next_initialized_tick_array_start_index unwrap")
          | some nextIdx? =>
            match tick_arrays with
            | [] => .error (.panic "pop_front unwrap")
            | a :: rest =>
              match nextIdx? with
              | none => .error (.msg "tick array start tick index out of range limit")
              | some nextIdx =>
                if a.start_tick_index ≠ nextIdx then
                  .error (.msg "tick array start tick index does not match")
                else
                  match a.first_initialized_tick zero_for_one with
                  | .ok ts => .ok (ts, a, rest, tick_array_start_index_vec ++ [a.start_tick_index])
                  | .error _ => .error (.panic "first_initialized_tick unwrap")
        else .ok (nit1, tick_array_current, tick_arrays, tick_array_start_index_vec)
      match step2 with
      | .error e => .error e
      | .ok (nit, arrCur, arrsRest, vec) =>
        let tick_next :=
          if nit.tick < MIN_TICK then MIN_TICK
          else if MAX_TICK < nit.tick then MAX_TICK
          else nit.tick
        let initialized := nit.is_initialized
        match lib.get_sqrt_price_at_tick tick_next with
        | none => .error (.panic "get_sqrt_price_at_tick unwrap")
        | some sqrt_price_next_x64 =>
          let target_price :=
            if (zero_for_one ∧ sqrt_price_next_x64 < sqrt_price_limit_x64) ∨
               (¬ zero_for_one ∧ sqrt_price_limit_x64 < sqrt_price_next_x64) then
              sqrt_price_limit_x64
            else sqrt_price_next_x64
          match lib.compute_swap_step st.sqrt_price_x64 target_price st.liquidity
              st.amount_specified_remaining trade_fee_rate is_base_input zero_for_one 1 with
          | none => .error (.panic "compute_swap_step unwrap")
          | some sw =>
            let amountsStep : RResult (Nat × Nat) :=
              if is_base_input then
                if st.amount_specified_remaining < sw.amount_in + sw.fee_amount then
                  .error (.panic "checked_sub")
                else if U64_SIZE ≤ st.amount_calculated + sw.amount_out then
                  .error (.panic "checked_add")
                else
                  .ok (st.amount_specified_remaining - (sw.amount_in + sw.fee_amount),
                       st.amount_calculated + sw.amount_out)
              else
                if st.amount_specified_remaining < sw.amount_out then
                  .error (.panic "checked_sub")
                else if U64_SIZE ≤ st.amount_calculated + (sw.amount_in + sw.fee_amount) then
                  .error (.panic "checked_add")
                else
                  .ok (st.amount_specified_remaining - sw.amount_out,
                       st.amount_calculated + (sw.amount_in + sw.fee_amount))
            match amountsStep with
            | .error e => .error e
            | .ok (remaining, calculated) =>
              let stMid : SwapState :=
                { st with
                  amount_specified_remaining := remaining
                  amount_calculated := calculated
                  sqrt_price_x64 := sw.sqrt_price_next_x64 }
              if sw.sqrt_price_next_x64 = sqrt_price_next_x64 then
                let liqStep : RResult Nat :=
                  if initialized then
                    let liquidity_net :=
                      if zero_for_one then -nit.liquidity_net else nit.liquidity_net
                    match lib.add_delta st.liquidity liquidity_net with
                    | some l => .ok l
                    | none => .error (.panic "add_delta unwrap")
                  else .ok st.liquidity
                match liqStep with
                | .error e => .error e
                | .ok liquidity =>
                  let tick := if zero_for_one then tick_next - 1 else tick_next
                  .ok ({ stMid with liquidity := liquidity, tick := tick },
                       arrCur, arrsRest, tick_match', vec)
              else if sw.sqrt_price_next_x64 ≠ sqrt_price_start_x64 then
                match lib.get_tick_at_sqrt_price sw.sqrt_price_next_x64 with
                | some tick => .ok ({ stMid with tick := tick }, arrCur, arrsRest, tick_match', vec)
                | none => .error (.panic "get_tick_at_sqrt_price unwrap")
              else
                .ok (stMid, arrCur, arrsRest, tick_match', vec)

/-- Embeds the `swap_compute` while loop (`clmm/clmm_utils.rs:370-492`).
The extra final `Nat` of the `.ok` result instruments the number of
executed step iterations (the final `loop_count`); `fuel` keeps the
recursion structural — the loop-cap check bounds the live recursion
depth, so with the `12` supplied by `swap_compute` the fuel never runs
out. -/
def swapLoopAux (lib : ClmmLib) (zero_for_one is_base_input : Bool)
    (trade_fee_rate tick_spacing sqrt_price_limit_x64 : Nat)
    (current_valid_tick_array_start_index : Int) :
    Nat → SwapState → TickArrayState → List TickArrayState → Bool → List Int → Nat →
    RResult (SwapState × List Int × Nat)
  | 0, _, _, _, _, _, _ => .error (.panic "loop fuel (unreachable)")
  | fuel + 1, st, arr, arrs, tickMatch, vec, loop_count =>
    if swapLoopCond st sqrt_price_limit_x64 then
      if 10 < loop_count then .error (.msg "loop_count limit")
      else
        match swapStepBody lib zero_for_one is_base_input trade_fee_rate tick_spacing
            sqrt_price_limit_x64 current_valid_tick_array_start_index
            st arr arrs tickMatch vec with
        | .error e => .error e
        | .ok (st', arr', arrs', tickMatch', vec') =>
          swapLoopAux lib zero_for_one is_base_input trade_fee_rate tick_spacing
            sqrt_price_limit_x64 current_valid_tick_array_start_index
            fuel st' arr' arrs' tickMatch' vec' (loop_count + 1)
    else .ok (st, vec, loop_count)

/-- Embeds `swap_compute` (`clmm/clmm_utils.rs:313-495`) with the
iteration count instrumented as the extra final `Nat` of the `.ok`
result: zero-amount check, price-limit defaulting and validation,
initial state from the pool snapshot, first tick-array pop with its
start-index consistency check, then the swap loop. -/
def swap_compute_instr (lib : ClmmLib)
    (zero_for_one is_base_input is_pool_current_tick_array : Bool)
    (trade_fee_rate amount_specified : Nat)
    (current_valid_tick_array_start_index : Int)
    (sqrt_price_limit_x64 : Nat) (pool_state : PoolStateCore)
    (tick_arrays : List TickArrayState) : RResult (Nat × List Int × Nat) :=
  if amount_specified = 0 then .error (.msg "amountSpecified must not be 0")
  else
    let sqrt_price_limit_x64 :=
      if sqrt_price_limit_x64 = 0 then
        if zero_for_one then MIN_SQRT_PRICE_X64 + 1 else MAX_SQRT_PRICE_X64 - 1
      else sqrt_price_limit_x64
    if zero_for_one ∧ sqrt_price_limit_x64 < MIN_SQRT_PRICE_X64 then
      .error (.msg "sqrt_price_limit_x64 must greater than MIN_SQRT_PRICE_X64")
    else if zero_for_one ∧ pool_state.sqrt_price_x64 ≤ sqrt_price_limit_x64 then
      .error (.msg "sqrt_price_limit_x64 must smaller than current")
    else if ¬ zero_for_one ∧ MAX_SQRT_PRICE_X64 < sqrt_price_limit_x64 then
      .error (.msg "sqrt_price_limit_x64 must smaller than MAX_SQRT_PRICE_X64")
    else if ¬ zero_for_one ∧ sqrt_price_limit_x64 ≤ pool_state.sqrt_price_x64 then
      .error (.msg "sqrt_price_limit_x64 must greater than current")
    else
      let st : SwapState :=
        { amount_specified_remaining := amount_specified
          amount_calculated := 0
          sqrt_price_x64 := pool_state.sqrt_price_x64
          tick := pool_state.tick_current
          liquidity := pool_state.liquidity }
      match tick_arrays with
      | [] => .error (.panic "pop_front unwrap")
      | a :: rest =>
        if a.start_tick_index ≠ current_valid_tick_array_start_index then
          .error (.msg "tick array start tick index does not match")
        else
          match swapLoopAux lib zero_for_one is_base_input trade_fee_rate
              pool_state.tick_spacing sqrt_price_limit_x64
              current_valid_tick_array_start_index
              12 st a rest is_pool_current_tick_array [a.start_tick_index] 0 with
          | .error e => .error e
          | .ok (stFinal, vec, n) => .ok (stFinal.amount_calculated, vec, n)

/-- Embeds `swap_compute` (`clmm/clmm_utils.rs:313`) with the source's
result shape `(amount_calculated, visited start indices)`. -/
def swap_compute (lib : ClmmLib)
    (zero_for_one is_base_input is_pool_current_tick_array : Bool)
    (trade_fee_rate amount_specified : Nat)
    (current_valid_tick_array_start_index : Int)
    (sqrt_price_limit_x64 : Nat) (pool_state : PoolStateCore)
    (tick_arrays : List TickArrayState) : RResult (Nat × List Int) :=
  match swap_compute_instr lib zero_for_one is_base_input is_pool_current_tick_array
      trade_fee_rate amount_specified current_valid_tick_array_start_index
      sqrt_price_limit_x64 pool_state tick_arrays with
  | .error e => .error e
  | .ok (amount, vec, _) => .ok (amount, vec)

/-- FEE_RATE_DENOMINATOR_VALUE of the CLMM fee math (parts per
million). -/
def FEE_RATE_DENOMINATOR_VALUE : Nat := 1000000

/-- Modelled from the spec: token-0 amount between two sqrt prices at
constant liquidity, `L * 2^64 * (pHigh - pLow) / (pHigh * pLow)` with
explicit rounding direction (missing `libraries/sqrt_price_math.rs`). -/
def get_delta_amount_0 (sqrt_price_low sqrt_price_high liquidity : Nat)
    (round_up : Bool) : Nat :=
  let num := liquidity * (sqrt_price_high - sqrt_price_low) * U64_SIZE
  let den := sqrt_price_high * sqrt_price_low
  if round_up then (num + (den - 1)) / den else num / den

/-- Modelled from the spec: token-1 amount between two sqrt prices at
constant liquidity, `L * (pHigh - pLow) / 2^64` with explicit rounding
direction (missing `libraries/sqrt_price_math.rs`). -/
def get_delta_amount_1 (sqrt_price_low sqrt_price_high liquidity : Nat)
    (round_up : Bool) : Nat :=
  let num := liquidity * (sqrt_price_high - sqrt_price_low)
  if round_up then (num + (U64_SIZE - 1)) / U64_SIZE else num / U64_SIZE

/-- Modelled from the spec: `compute_swap_step` of the missing
`libraries/swap_math.rs` — the constant-liquidity swap-step formula:
amount-in, amount-out and fee for moving from the current sqrt price
toward the target at the current liquidity, honouring `is_base_input`
to decide which side is held fixed; the price stops short of the target
when the fixed amount is exhausted first.  The last argument is the
source's unused block-timestamp parameter. -/
def compute_swap_step (sqrt_price_current_x64 sqrt_price_target_x64 liquidity
    amount_remaining fee_rate : Nat) (is_base_input zero_for_one : Bool) (_ts : Nat) :
    Option SwapStep :=
  let sqrt_price_low := if zero_for_one then sqrt_price_target_x64 else sqrt_price_current_x64
  let sqrt_price_high := if zero_for_one then sqrt_price_current_x64 else sqrt_price_target_x64
  let fee_complement := FEE_RATE_DENOMINATOR_VALUE - fee_rate
  if is_base_input then
    let amount_in_full :=
      if zero_for_one then get_delta_amount_0 sqrt_price_low sqrt_price_high liquidity true
      else get_delta_amount_1 sqrt_price_low sqrt_price_high liquidity true
    let amount_remaining_less_fee := amount_remaining * fee_complement / FEE_RATE_DENOMINATOR_VALUE
    if amount_in_full ≤ amount_remaining_less_fee then
      let amount_out :=
        if zero_for_one then get_delta_amount_1 sqrt_price_low sqrt_price_high liquidity false
        else get_delta_amount_0 sqrt_price_low sqrt_price_high liquidity false
      some ⟨sqrt_price_target_x64, amount_in_full, amount_out,
            (amount_in_full * fee_rate + (fee_complement - 1)) / fee_complement⟩
    else
      let next :=
        if zero_for_one then
          let num := liquidity * U64_SIZE * sqrt_price_current_x64
          let den := liquidity * U64_SIZE + amount_remaining_less_fee * sqrt_price_current_x64
          (num + (den - 1)) / den
        else sqrt_price_current_x64 + amount_remaining_less_fee * U64_SIZE / liquidity
      let amount_out :=
        if zero_for_one then get_delta_amount_1 next sqrt_price_current_x64 liquidity false
        else get_delta_amount_0 sqrt_price_current_x64 next liquidity false
      some ⟨next, amount_remaining_less_fee, amount_out,
            amount_remaining - amount_remaining_less_fee⟩
  else
    let amount_out_full :=
      if zero_for_one then get_delta_amount_1 sqrt_price_low sqrt_price_high liquidity false
      else get_delta_amount_0 sqrt_price_low sqrt_price_high liquidity false
    if amount_out_full ≤ amount_remaining then
      let amount_in :=
        if zero_for_one then get_delta_amount_0 sqrt_price_low sqrt_price_high liquidity true
        else get_delta_amount_1 sqrt_price_low sqrt_price_high liquidity true
      some ⟨sqrt_price_target_x64, amount_in, amount_out_full,
            (amount_in * fee_rate + (fee_complement - 1)) / fee_complement⟩
    else
      let next :=
        if zero_for_one then sqrt_price_current_x64 - amount_remaining * U64_SIZE / liquidity
        else liquidity * U64_SIZE * sqrt_price_current_x64 /
          (liquidity * U64_SIZE - amount_remaining * sqrt_price_current_x64)
      let amount_in :=
        if zero_for_one then get_delta_amount_0 next sqrt_price_current_x64 liquidity true
        else get_delta_amount_1 sqrt_price_current_x64 next liquidity true
      some ⟨next, amount_in, amount_remaining,
            (amount_in * fee_rate + (fee_complement - 1)) / fee_complement⟩

/-- Modelled from the spec: concrete instantiation of the missing
library functions used to evaluate `swap_compute` on closed inputs —
the tick/price conversion models, the swap-step formula model, the
checked liquidity addition, and a pool-state bitmap successor that
reports no further initialized tick array (`Ok(None)`). -/
def clmmLibModel : ClmmLib :=
  { get_sqrt_price_at_tick := get_sqrt_price_at_tick
    get_tick_at_sqrt_price := get_tick_at_sqrt_price
    compute_swap_step := compute_swap_step
    add_delta := add_delta
    next_initialized_tick_array_start_index := fun _ _ => some none }

/-- Transfer-fee configuration with both schedules pinned at
`MAX_FEE_BASIS_POINTS` and a maximum fee of `100`, used to evaluate the
fee helpers on closed inputs. -/
def pinnedFeeConfig : TransferFeeConfig :=
  { older_transfer_fee := { epoch := 0, maximum_fee := 100, transfer_fee_basis_points := 10000 }
    newer_transfer_fee := { epoch := 0, maximum_fee := 100, transfer_fee_basis_points := 10000 } }

/-- One tick array starting at `0` with all 60 slots initialized
(spacing 1, zero net liquidity), used to drive the swap loop across
many boundary ticks. -/
def allInitTickArray : TickArrayState :=
  { start_tick_index := 0
    ticks := (List.range 60).map (fun i => { tick := (i : Int), liquidity_gross := 1 }) }

/-- Pool snapshot at tick `0` with zero liquidity and the model sqrt
price of tick `0`. -/
def zeroLiquidityPool : PoolStateCore :=
  { tick_current := 0, tick_spacing := 1, liquidity := 0
    sqrt_price_x64 := sqrtPriceAtTickRaw 0 }

lemma Int.tmod_neg_left (a b : Int) : (-a).tmod b = -(a.tmod b) := by
  rw [Int.tmod_def, Int.tmod_def, Int.neg_tdiv]
  ring

lemma tmod_neg_bounds {t s : Int} (ht : t < 0) (hs : 0 < s) (hr : t.tmod s ≠ 0) :
    -s < t.tmod s ∧ t.tmod s < 0 := by
  have h1 : t.tmod s = -((-t).tmod s) := by
    rw [← Int.tmod_neg_left, neg_neg]
  have h2 : 0 ≤ (-t).tmod s := Int.tmod_nonneg s (by omega)
  have h3 : (-t).tmod s < s := Int.tmod_lt_of_pos (-t) hs
  constructor
  · omega
  · omega

/-- C7: `tick_with_spacing` always produces a multiple of the spacing;
for a negative tick with non-zero remainder the result is the multiple
of the spacing immediately below the tick; and
`TickArrayState::get_array_start_index` is exactly the same rounding
applied with `60 * spacing` in place of the spacing. -/
theorem tick_with_spacing_floor_rules (t : Int) (s : Nat) (hs : 0 < s) :
    ((s : Int) ∣ tick_with_spacing t s) ∧
    (t < 0 → t.tmod s ≠ 0 →
      tick_with_spacing t s < t ∧ t < tick_with_spacing t s + s) ∧
    TickArrayState.get_array_start_index t s = tick_with_spacing t (60 * (s : Int)) := by
  have hsi : (0 : Int) < (s : Int) := by exact_mod_cast hs
  refine ⟨?_, ?_, ?_⟩
  · simp only [tick_with_spacing]
    split
    · exact Dvd.intro_left _ rfl
    · exact Dvd.intro_left _ rfl
  · intro ht hr
    have hkey : tick_with_spacing t s = (t.tdiv s - 1) * s := by
      simp only [tick_with_spacing]
      rw [if_pos ⟨ht, hr⟩]
    have hdm : t.tmod s + s * t.tdiv s = t := Int.tmod_add_tdiv t s
    have hb := tmod_neg_bounds ht hsi hr
    constructor
    · rw [hkey]; nlinarith [hb.1, hb.2]
    · rw [hkey]; nlinarith [hb.1, hb.2]
  · rfl

/-- Witness for C7 at the spec's own example, tick `-7` with spacing
`10` (and the start-index agreement at the same input). -/
theorem tick_with_spacing_floor_rules_witness :
    ((10 : Int) ∣ tick_with_spacing (-7) 10) ∧
    (tick_with_spacing (-7) 10 < -7 ∧ (-7 : Int) < tick_with_spacing (-7) 10 + 10) ∧
    TickArrayState.get_array_start_index (-7) 10 = tick_with_spacing (-7) (60 * 10) ∧
    tick_with_spacing (-7) 10 = -10 := by
  refine ⟨(tick_with_spacing_floor_rules (-7) 10 (by decide)).1,
          (tick_with_spacing_floor_rules (-7) 10 (by decide)).2.1 (by decide) (by decide),
          (tick_with_spacing_floor_rules (-7) 10 (by decide)).2.2, by decide⟩

lemma amount_with_slippage_ok_up {a b v : Nat} :
    amount_with_slippage a b true = .ok v ↔
      b + TEN_THOUSAND < U128_SIZE ∧ a * (b + TEN_THOUSAND) < U128_SIZE ∧
      a * (b + TEN_THOUSAND) / TEN_THOUSAND < U64_SIZE ∧
      v = a * (b + TEN_THOUSAND) / TEN_THOUSAND := by
  simp only [amount_with_slippage, if_true]
  split_ifs with h1 h2 h3 <;>
    simp_all [Nat.not_le, Nat.not_lt, eq_comm]

lemma amount_with_slippage_ok_down {a b v : Nat} :
    amount_with_slippage a b false = .ok v ↔
      b ≤ TEN_THOUSAND ∧ a * (TEN_THOUSAND - b) < U128_SIZE ∧
      a * (TEN_THOUSAND - b) / TEN_THOUSAND < U64_SIZE ∧
      v = a * (TEN_THOUSAND - b) / TEN_THOUSAND := by
  simp only [amount_with_slippage, Bool.false_eq_true, if_false]
  split_ifs with h1 h2 h3 <;>
    simp_all [Nat.not_le, Nat.not_lt, eq_comm]

/-- C8: `amount_with_slippage` is monotonic in the slippage:
non-decreasing in `slippage_bps` when `up_towards`, non-increasing when
not (under `slippage_bps ≤ 10000`); a successful result is the exact
widened-arithmetic quotient, below the `u64` bound (the range check
fails instead of wrapping). -/
theorem amount_with_slippage_monotonic (a b1 b2 : Nat) :
    (∀ v1 v2, b1 ≤ b2 →
      amount_with_slippage a b1 true = .ok v1 →
      amount_with_slippage a b2 true = .ok v2 → v1 ≤ v2) ∧
    (∀ v1 v2, b1 ≤ b2 → b2 ≤ TEN_THOUSAND →
      amount_with_slippage a b1 false = .ok v1 →
      amount_with_slippage a b2 false = .ok v2 → v2 ≤ v1) ∧
    (∀ u v, amount_with_slippage a b1 u = .ok v →
      v < U64_SIZE ∧
      v = (if u then a * (b1 + TEN_THOUSAND) / TEN_THOUSAND
           else a * (TEN_THOUSAND - b1) / TEN_THOUSAND)) := by
  refine ⟨?_, ?_, ?_⟩
  · intro v1 v2 hb h1 h2
    rw [amount_with_slippage_ok_up] at h1 h2
    obtain ⟨-, -, -, hv1⟩ := h1
    obtain ⟨-, -, -, hv2⟩ := h2
    rw [hv1, hv2]
    exact Nat.div_le_div_right (Nat.mul_le_mul_left a (by omega))
  · intro v1 v2 hb hb2 h1 h2
    rw [amount_with_slippage_ok_down] at h1 h2
    obtain ⟨-, -, -, hv1⟩ := h1
    obtain ⟨-, -, -, hv2⟩ := h2
    rw [hv1, hv2]
    exact Nat.div_le_div_right (Nat.mul_le_mul_left a (by omega))
  · intro u v h
    cases u
    · rw [amount_with_slippage_ok_down] at h
      exact ⟨h.2.2.2 ▸ h.2.2.1, by simpa using h.2.2.2⟩
    · rw [amount_with_slippage_ok_up] at h
      exact ⟨h.2.2.2 ▸ h.2.2.1, by simpa using h.2.2.2⟩

/-- Witness for C8: concrete monotone instances `100 ≤ 200` basis
points on amount `1000000` in both directions, and the exact-quotient
form of the upward result. -/
theorem amount_with_slippage_monotonic_witness :
    (amount_with_slippage 1000000 100 true = .ok 1010000 ∧
     amount_with_slippage 1000000 200 true = .ok 1020000 ∧
     (1010000 : Nat) ≤ 1020000) ∧
    (amount_with_slippage 1000000 100 false = .ok 990000 ∧
     amount_with_slippage 1000000 200 false = .ok 980000 ∧
     (980000 : Nat) ≤ 990000) ∧
    ((1010000 : Nat) < U64_SIZE ∧
     (1010000 : Nat) = if true then 1000000 * (100 + TEN_THOUSAND) / TEN_THOUSAND
        else 1000000 * (TEN_THOUSAND - 100) / TEN_THOUSAND) := by
  refine ⟨⟨by decide, by decide,
            (amount_with_slippage_monotonic 1000000 100 200).1 1010000 1020000 (by decide)
              (by decide) (by decide)⟩,
          ⟨by decide, by decide,
            (amount_with_slippage_monotonic 1000000 100 200).2.1 990000 980000 (by decide)
              (by decide) (by decide) (by decide)⟩,
          (amount_with_slippage_monotonic 1000000 100 200).2.2 true 1010000 (by decide)⟩

/-- C10: with `up_towards = false`, every `slippage_bps` above `10000`
makes `amount_with_slippage` panic through the `.unwrap()` of the
checked subtraction `10000 - bps` instead of returning an error value;
with `slippage_bps ≤ 10000` that panic branch is unreachable. -/
theorem amount_with_slippage_checked_sub_panic (a b : Nat) :
    (TEN_THOUSAND < b →
      amount_with_slippage a b false = .error (.panic "checked_sub")) ∧
    (b ≤ TEN_THOUSAND →
      amount_with_slippage a b false ≠ .error (.panic "checked_sub")) := by
  constructor
  · intro h
    simp only [amount_with_slippage, Bool.false_eq_true, if_false, if_pos h]
  · intro h
    simp only [amount_with_slippage, Bool.false_eq_true, if_false]
    rw [if_neg (by omega)]
    split_ifs <;> simp

/-- Witness for C10: `slippage_bps = 10001` panics via the checked
subtraction, `slippage_bps = 10000` does not. -/
theorem amount_with_slippage_checked_sub_panic_witness :
    amount_with_slippage 7 10001 false = .error (.panic "checked_sub") ∧
    amount_with_slippage 7 10000 false ≠ .error (.panic "checked_sub") := by
  exact ⟨(amount_with_slippage_checked_sub_panic 7 10001).1 (by decide),
         (amount_with_slippage_checked_sub_panic 7 10000).2 (by decide)⟩

/-- C9: when the tick-array window that contains `current_tick_index`
(per `get_array_start_index`) is not this array's own window,
`next_initialized_tick` silently reports `Ok(None)` — no tick here —
rather than an error, although the queried tick lies entirely outside
the array's range. -/
theorem next_initialized_tick_outside_window (a : TickArrayState) (current_tick_index : Int)
    (tick_spacing : Nat) (zero_for_one : Bool) (_hs : 0 < tick_spacing)
    (hmismatch : TickArrayState.get_array_start_index current_tick_index tick_spacing
      ≠ a.start_tick_index) :
    a.next_initialized_tick current_tick_index tick_spacing zero_for_one = .ok none := by
  simp only [TickArrayState.next_initialized_tick, if_pos hmismatch]

/-- Witness for C9: an array starting at `0` queried at tick `100000`
with spacing `1` (window start `99960`). -/
theorem next_initialized_tick_outside_window_witness :
    TickArrayState.next_initialized_tick
      { start_tick_index := 0, ticks := [] } 100000 1 true = .ok none := by
  exact next_initialized_tick_outside_window { start_tick_index := 0, ticks := [] }
    100000 1 true (by decide) (by decide)

/-- C2 (amended): a user input-token mint matching neither pool mint
makes the mint-matching step of `calculate_swap_change` panic with
"input tokens not match pool vaults" — a process abort, not the typed
"input token not in pool" validation error the spec describes. -/
theorem calculate_swap_change_direction_panics (user_input_mint : Nat)
    (token_mint_0 token_mint_1 token_vault_0 token_vault_1 : Nat)
    (mint0_token_program mint1_token_program : Nat)
    (h0 : user_input_mint ≠ token_mint_0) (h1 : user_input_mint ≠ token_mint_1) :
    calculate_swap_change_direction user_input_mint token_mint_0 token_mint_1
      token_vault_0 token_vault_1 mint0_token_program mint1_token_program
      = .error (.panic "input tokens not match pool vaults") := by
  simp only [calculate_swap_change_direction, if_neg h0, if_neg h1]

/-- Witness for C2 (amended): mint `7` against pool mints `1`/`2`. -/
theorem calculate_swap_change_direction_panics_witness :
    calculate_swap_change_direction 7 1 2 10 11 20 21
      = .error (.panic "input tokens not match pool vaults") := by
  exact calculate_swap_change_direction_panics 7 1 2 10 11 20 21 (by decide) (by decide)

/-- Counterexample for C2 as stated: with input mint `3` and pool mints
`1`/`2` the computation ends in the modelled `panic!` (a process
abort), which is not the typed "input token not in pool" error value
the claim asserts. -/
theorem calculate_swap_change_direction_counterexample :
    calculate_swap_change_direction 3 1 2 10 11 20 21
      = .error (.panic "input tokens not match pool vaults") ∧
    (Except.error (RErr.panic "input tokens not match pool vaults")
      : RResult SwapDirectionInfo) ≠ .error (.msg "input token not in pool") := by
  exact ⟨by decide, by decide⟩

/-- Counterexample for C3 as stated: with the epoch rate pinned at
`MAX_FEE_BASIS_POINTS` and `maximum_fee = 100`, `get_transfer_fee` of
amount `5` is `5`, not the amount-independent `maximum_fee = 100` the
claim asserts (the `MAX_FEE_BASIS_POINTS` short-circuit exists only in
`get_transfer_inverse_fee`). -/
theorem get_transfer_fee_at_max_counterexample :
    (pinnedFeeConfig.get_epoch_fee 0).transfer_fee_basis_points = MAX_FEE_BASIS_POINTS ∧
    (pinnedFeeConfig.get_epoch_fee 0).maximum_fee = 100 ∧
    get_transfer_fee (some pinnedFeeConfig) 0 5 = .ok 5 ∧
    (Except.ok 5 : RResult Nat) ≠ .ok 100 := by
  exact ⟨by decide, by decide, by decide, by decide⟩

/-- C3 (amended): with the epoch's `transfer_fee_basis_points` pinned
at `MAX_FEE_BASIS_POINTS`, `get_transfer_inverse_fee` returns the
schedule's fixed `maximum_fee` for every amount, while
`get_transfer_fee` returns `min amount maximum_fee`, which still
depends on the amount. -/
theorem transfer_fee_at_max_basis_points (c : TransferFeeConfig) (epoch : Nat)
    (hmax : (c.get_epoch_fee epoch).transfer_fee_basis_points = MAX_FEE_BASIS_POINTS) :
    (∀ post_fee_amount, get_transfer_inverse_fee (some c) epoch post_fee_amount
      = .ok (c.get_epoch_fee epoch).maximum_fee) ∧
    (∀ pre_fee_amount, pre_fee_amount < U64_SIZE →
      get_transfer_fee (some c) epoch pre_fee_amount
        = .ok (min pre_fee_amount (c.get_epoch_fee epoch).maximum_fee)) := by
  constructor
  · intro post
    simp only [get_transfer_inverse_fee, if_pos hmax]
  · intro pre hpre
    simp only [get_transfer_fee, TransferFeeConfig.calculate_epoch_fee,
      TransferFee.calculate_fee, hmax]
    rcases Nat.eq_zero_or_pos pre with hz | hp
    · subst hz
      simp [MAX_FEE_BASIS_POINTS]
    · have hbne : ¬ (MAX_FEE_BASIS_POINTS = 0 ∨ pre = 0) := by
        simp [MAX_FEE_BASIS_POINTS]; omega
      rw [if_neg hbne]
      have hnum : pre * MAX_FEE_BASIS_POINTS < U128_SIZE := by
        have h2 : pre * MAX_FEE_BASIS_POINTS < U64_SIZE * MAX_FEE_BASIS_POINTS :=
          Nat.mul_lt_mul_of_lt_of_le hpre (le_refl _) (by norm_num [MAX_FEE_BASIS_POINTS])
        calc pre * MAX_FEE_BASIS_POINTS < U64_SIZE * MAX_FEE_BASIS_POINTS := h2
          _ < U128_SIZE := by norm_num [U64_SIZE, U128_SIZE, MAX_FEE_BASIS_POINTS]
      rw [if_neg (by omega)]
      have hraw : (pre * MAX_FEE_BASIS_POINTS + ONE_IN_BASIS_POINTS - 1) / ONE_IN_BASIS_POINTS
          = pre := by
        have h1 : pre * MAX_FEE_BASIS_POINTS + ONE_IN_BASIS_POINTS - 1
            = ONE_IN_BASIS_POINTS * pre + (ONE_IN_BASIS_POINTS - 1) := by
          simp only [MAX_FEE_BASIS_POINTS, ONE_IN_BASIS_POINTS]
          ring_nf
          omega
        rw [h1, Nat.mul_add_div (by norm_num [ONE_IN_BASIS_POINTS])]
        norm_num [ONE_IN_BASIS_POINTS]
      rw [hraw]
      have hfee : min pre (c.get_epoch_fee epoch).maximum_fee < U64_SIZE := by
        have := Nat.min_le_left pre (c.get_epoch_fee epoch).maximum_fee
        omega
      rw [if_pos hfee]

/-- Witness for C3 (amended): the pinned configuration at amounts `5`
and `1000` (inverse fee) shows the `maximum_fee` short-circuit and the
`min` behaviour concretely. -/
theorem transfer_fee_at_max_basis_points_witness :
    get_transfer_inverse_fee (some pinnedFeeConfig) 0 1000 = .ok 100 ∧
    get_transfer_fee (some pinnedFeeConfig) 0 5 = .ok (min 5 100) ∧
    get_transfer_fee (some pinnedFeeConfig) 0 1000 = .ok (min 1000 100) := by
  exact ⟨(transfer_fee_at_max_basis_points pinnedFeeConfig 0 (by decide)).1 1000,
         (transfer_fee_at_max_basis_points pinnedFeeConfig 0 (by decide)).2 5 (by decide),
         (transfer_fee_at_max_basis_points pinnedFeeConfig 0 (by decide)).2 1000 (by decide)⟩

/-- C5: over the full tick range the modelled conversion pair is
mutually inverse (`get_tick_at_sqrt_price` after
`get_sqrt_price_at_tick` is the identity) and monotonic in both
directions. -/
theorem tick_sqrt_price_roundtrip_and_monotone :
    (∀ t : Int, MIN_TICK ≤ t → t ≤ MAX_TICK →
      (get_sqrt_price_at_tick t).bind get_tick_at_sqrt_price = some t) ∧
    (∀ t1 t2 : Int, MIN_TICK ≤ t1 → t1 < t2 → t2 ≤ MAX_TICK →
      sqrtPriceAtTickRaw t1 < sqrtPriceAtTickRaw t2) ∧
    (∀ p1 p2 : Nat, p1 ≤ p2 → tickAtSqrtPriceRaw p1 ≤ tickAtSqrtPriceRaw p2) := by
  have hstep : 0 < TICK_PRICE_STEP := by decide
  refine ⟨?_, ?_, ?_⟩
  · intro t h1 h2
    have hkb : (t - MIN_TICK).toNat ≤ 887272 := by
      simp only [MIN_TICK, MAX_TICK] at h1 h2 ⊢
      omega
    have hhi : sqrtPriceAtTickRaw t ≤ MAX_SQRT_PRICE_X64 := by
      have hmul : (t - MIN_TICK).toNat * TICK_PRICE_STEP ≤ 887272 * TICK_PRICE_STEP :=
        Nat.mul_le_mul_right _ hkb
      have hdiv : 887272 * TICK_PRICE_STEP ≤ MAX_SQRT_PRICE_X64 - MIN_SQRT_PRICE_X64 := by
        simp only [TICK_PRICE_STEP]
        rw [Nat.mul_comm]
        exact Nat.div_mul_le_self _ _
      have hminmax : MIN_SQRT_PRICE_X64 ≤ MAX_SQRT_PRICE_X64 := by decide
      simp only [sqrtPriceAtTickRaw]
      omega
    have hlo : MIN_SQRT_PRICE_X64 ≤ sqrtPriceAtTickRaw t := Nat.le_add_right _ _
    have hcond1 : MIN_TICK ≤ t ∧ t ≤ MAX_TICK := ⟨h1, h2⟩
    have hcond2 : MIN_SQRT_PRICE_X64 ≤ sqrtPriceAtTickRaw t ∧
        sqrtPriceAtTickRaw t ≤ MAX_SQRT_PRICE_X64 := ⟨hlo, hhi⟩
    rw [get_sqrt_price_at_tick, if_pos hcond1, Option.some_bind,
      get_tick_at_sqrt_price, if_pos hcond2]
    have hval : tickAtSqrtPriceRaw (sqrtPriceAtTickRaw t) = t := by
      simp only [tickAtSqrtPriceRaw, sqrtPriceAtTickRaw, Nat.add_sub_cancel_left,
        Nat.mul_div_cancel _ hstep]
      simp only [MIN_TICK] at h1 ⊢
      omega
    rw [hval]
  · intro t1 t2 h1 h2 h3
    have hk : (t1 - MIN_TICK).toNat < (t2 - MIN_TICK).toNat := by
      simp only [MIN_TICK] at h1 ⊢
      omega
    simp only [sqrtPriceAtTickRaw]
    exact Nat.add_lt_add_left ((Nat.mul_lt_mul_right hstep).mpr hk) _
  · intro p1 p2 h
    simp only [tickAtSqrtPriceRaw]
    have hd : (p1 - MIN_SQRT_PRICE_X64) / TICK_PRICE_STEP
        ≤ (p2 - MIN_SQRT_PRICE_X64) / TICK_PRICE_STEP :=
      Nat.div_le_div_right (Nat.sub_le_sub_right h _)
    omega

/-- Witness for C5: the round trip at tick `5`, strict price
monotonicity between ticks `3` and `4`, and tick monotonicity between
two concrete sqrt prices. -/
theorem tick_sqrt_price_roundtrip_and_monotone_witness :
    (get_sqrt_price_at_tick 5).bind get_tick_at_sqrt_price = some 5 ∧
    sqrtPriceAtTickRaw 3 < sqrtPriceAtTickRaw 4 ∧
    tickAtSqrtPriceRaw 4295048016 ≤ tickAtSqrtPriceRaw 4295048017 := by
  exact ⟨tick_sqrt_price_roundtrip_and_monotone.1 5 (by decide) (by decide),
         tick_sqrt_price_roundtrip_and_monotone.2.1 3 4 (by decide) (by decide) (by decide),
         tick_sqrt_price_roundtrip_and_monotone.2.2 4295048016 4295048017 (by decide)⟩

/-- C4: with no supplied price limit (`0`) `swap_compute` behaves as if
the limit were `MIN_SQRT_PRICE_X64 + 1` (price decreasing) or
`MAX_SQRT_PRICE_X64 - 1` (price increasing); and a supplied limit on
the wrong side of the current sqrt price for the direction, or outside
the global sqrt-price bounds, produces one of the validation errors
emitted before any swap stepping. -/
theorem swap_compute_price_limit_validation (lib : ClmmLib)
    (zero_for_one is_base_input is_pool_current_tick_array : Bool)
    (trade_fee_rate amount_specified : Nat) (current_valid_tick_array_start_index : Int)
    (sqrt_price_limit_x64 : Nat) (pool_state : PoolStateCore)
    (tick_arrays : List TickArrayState) :
    (swap_compute lib zero_for_one is_base_input is_pool_current_tick_array trade_fee_rate
        amount_specified current_valid_tick_array_start_index 0 pool_state tick_arrays
      = swap_compute lib zero_for_one is_base_input is_pool_current_tick_array trade_fee_rate
        amount_specified current_valid_tick_array_start_index
        (if zero_for_one then MIN_SQRT_PRICE_X64 + 1 else MAX_SQRT_PRICE_X64 - 1)
        pool_state tick_arrays) ∧
    (amount_specified ≠ 0 → sqrt_price_limit_x64 ≠ 0 →
      MIN_SQRT_PRICE_X64 ≤ pool_state.sqrt_price_x64 →
      pool_state.sqrt_price_x64 ≤ MAX_SQRT_PRICE_X64 →
      ((zero_for_one = true ∧ (pool_state.sqrt_price_x64 ≤ sqrt_price_limit_x64 ∨
          sqrt_price_limit_x64 < MIN_SQRT_PRICE_X64 ∨
          MAX_SQRT_PRICE_X64 < sqrt_price_limit_x64)) ∨
       (zero_for_one = false ∧ (sqrt_price_limit_x64 ≤ pool_state.sqrt_price_x64 ∨
          sqrt_price_limit_x64 < MIN_SQRT_PRICE_X64 ∨
          MAX_SQRT_PRICE_X64 < sqrt_price_limit_x64))) →
      ∃ e, swap_compute lib zero_for_one is_base_input is_pool_current_tick_array
          trade_fee_rate amount_specified current_valid_tick_array_start_index
          sqrt_price_limit_x64 pool_state tick_arrays = .error (.msg e) ∧
        (e = "sqrt_price_limit_x64 must greater than MIN_SQRT_PRICE_X64" ∨
         e = "sqrt_price_limit_x64 must smaller than current" ∨
         e = "sqrt_price_limit_x64 must smaller than MAX_SQRT_PRICE_X64" ∨
         e = "sqrt_price_limit_x64 must greater than current")) := by
  constructor
  · cases zero_for_one <;> rfl
  · intro hA hL hplo hphi hbad
    have key : ∃ e, swap_compute_instr lib zero_for_one is_base_input
        is_pool_current_tick_array trade_fee_rate amount_specified
        current_valid_tick_array_start_index sqrt_price_limit_x64 pool_state tick_arrays
        = .error (.msg e) ∧
        (e = "sqrt_price_limit_x64 must greater than MIN_SQRT_PRICE_X64" ∨
         e = "sqrt_price_limit_x64 must smaller than current" ∨
         e = "sqrt_price_limit_x64 must smaller than MAX_SQRT_PRICE_X64" ∨
         e = "sqrt_price_limit_x64 must greater than current") := by
      rcases hbad with ⟨hz, hcase⟩ | ⟨hz, hcase⟩ <;> subst hz <;>
        simp only [swap_compute_instr, if_neg hA, if_neg hL] <;>
        simp only [Bool.false_eq_true, true_and, false_and, if_false,
          not_false_eq_true, not_true_eq_false] <;>
        split_ifs with h1 h2 <;>
        first
          | exact ⟨_, rfl, by tauto⟩
          | (exfalso; omega)
    obtain ⟨e, he, hmem⟩ := key
    exact ⟨e, by simp only [swap_compute, he], hmem⟩

/-- Witness for C4: a pool at `sqrt_price = 2^64` with a limit equal to
the current price in the decreasing direction is rejected with the
wrong-side validation error. -/
theorem swap_compute_price_limit_validation_witness :
    ∃ e, swap_compute clmmLibModel true true true 0 5 0 (2 ^ 64)
        { tick_current := 0, tick_spacing := 1, liquidity := 0, sqrt_price_x64 := 2 ^ 64 }
        [] = .error (.msg e) ∧
      (e = "sqrt_price_limit_x64 must greater than MIN_SQRT_PRICE_X64" ∨
       e = "sqrt_price_limit_x64 must smaller than current" ∨
       e = "sqrt_price_limit_x64 must smaller than MAX_SQRT_PRICE_X64" ∨
       e = "sqrt_price_limit_x64 must greater than current") := by
  exact (swap_compute_price_limit_validation clmmLibModel true true true 0 5 0 (2 ^ 64)
      { tick_current := 0, tick_spacing := 1, liquidity := 0, sqrt_price_x64 := 2 ^ 64 }
      []).2 (by decide) (by decide) (by decide) (by decide)
      (Or.inl ⟨rfl, Or.inl (by decide)⟩)

lemma swapLoopAux_count_le (lib : ClmmLib) (zero_for_one is_base_input : Bool)
    (trade_fee_rate tick_spacing sqrt_price_limit_x64 : Nat)
    (current_valid_tick_array_start_index : Int) :
    ∀ fuel loop_count st arr arrs tickMatch vec stF vecF n, loop_count ≤ 11 →
      swapLoopAux lib zero_for_one is_base_input trade_fee_rate tick_spacing
        sqrt_price_limit_x64 current_valid_tick_array_start_index
        fuel st arr arrs tickMatch vec loop_count = .ok (stF, vecF, n) →
      n ≤ 11 := by
  intro fuel
  induction fuel with
  | zero =>
    intro lc st arr arrs tm vec stF vecF n hlc h
    simp [swapLoopAux] at h
  | succ f ih =>
    intro lc st arr arrs tm vec stF vecF n hlc h
    simp only [swapLoopAux] at h
    by_cases hc : swapLoopCond st sqrt_price_limit_x64 = true
    · rw [if_pos hc] at h
      by_cases hl : 10 < lc
      · rw [if_pos hl] at h
        simp at h
      · rw [if_neg hl] at h
        cases hbody : swapStepBody lib zero_for_one is_base_input trade_fee_rate tick_spacing
            sqrt_price_limit_x64 current_valid_tick_array_start_index st arr arrs tm vec with
        | error e => rw [hbody] at h; simp at h
        | ok q =>
          rw [hbody] at h
          obtain ⟨st', arr', arrs', tm', vec'⟩ := q
          exact ih (lc + 1) st' arr' arrs' tm' vec' stF vecF n (by omega) h
    · rw [if_neg hc] at h
      simp only [Except.ok.injEq, Prod.mk.injEq] at h
      obtain ⟨-, -, hn⟩ := h
      omega

lemma swap_compute_match_ok {x : RResult (SwapState × List Int × Nat)} {amt : Nat}
    {vec : List Int} {n : Nat}
    (h : (match x with
          | .error e => .error e
          | .ok (stFinal, v, m) => .ok (stFinal.amount_calculated, v, m))
        = (.ok (amt, vec, n) : RResult (Nat × List Int × Nat))) :
    ∃ st v, x = .ok (st, v, n) := by
  cases x with
  | error e => simp at h
  | ok q =>
    obtain ⟨st, v, m⟩ := q
    simp only [Except.ok.injEq, Prod.mk.injEq] at h
    exact ⟨st, v, by rw [h.2.2]⟩

/-- C1 (amended): the `swap_compute` loop executes at most eleven step
iterations — every successful run reports an instrumented iteration
count of at most `11` — and when a twelfth step would be required (the
loop re-entered with `loop_count = 11` and the continuation condition
still true) the function returns the fatal "loop_count limit" error
instead of iterating further or panicking.  Both parts hold for every
instantiation of the missing library functions. -/
theorem swap_compute_loop_cap_eleven :
    (∀ (lib : ClmmLib) (zero_for_one is_base_input is_pool_current_tick_array : Bool)
      (trade_fee_rate amount_specified : Nat) (current_valid_tick_array_start_index : Int)
      (sqrt_price_limit_x64 : Nat) (pool_state : PoolStateCore)
      (tick_arrays : List TickArrayState) (amount : Nat) (vec : List Int) (n : Nat),
      swap_compute_instr lib zero_for_one is_base_input is_pool_current_tick_array
        trade_fee_rate amount_specified current_valid_tick_array_start_index
        sqrt_price_limit_x64 pool_state tick_arrays = .ok (amount, vec, n) →
      n ≤ 11) ∧
    (∀ (lib : ClmmLib) (zero_for_one is_base_input : Bool)
      (trade_fee_rate tick_spacing sqrt_price_limit_x64 : Nat)
      (current_valid_tick_array_start_index : Int) (fuel : Nat) (st : SwapState)
      (arr : TickArrayState) (arrs : List TickArrayState) (tickMatch : Bool) (vec : List Int),
      swapLoopCond st sqrt_price_limit_x64 = true →
      swapLoopAux lib zero_for_one is_base_input trade_fee_rate tick_spacing
        sqrt_price_limit_x64 current_valid_tick_array_start_index
        (fuel + 1) st arr arrs tickMatch vec 11 = .error (.msg "loop_count limit")) := by
  constructor
  · intro lib zfo ibi ipc fee amount curStart limit pool arrs amt vec n h
    cases arrs with
    | nil =>
      simp only [swap_compute_instr] at h
      split_ifs at h
    | cons a rest =>
      simp only [swap_compute_instr] at h
      split_ifs at h
      all_goals {
        obtain ⟨stF, vF, hloop⟩ := swap_compute_match_ok h
        exact swapLoopAux_count_le _ _ _ _ _ _ _ _ _ _ _ _ _ _ _ _ _ (by omega) hloop }
  · intro lib zfo ibi fee spacing limit curStart fuel st arr arrs tm vec hc
    simp [swapLoopAux, hc]

/-- Counterexample for C1 as stated: a concrete `swap_compute` run
(price increasing, base input, limit at the model sqrt price of tick
`11`) executes eleven step iterations — more than the ten the claim
allows — and returns successfully rather than the "loop_count limit"
error. -/
theorem swap_compute_eleven_steps_counterexample :
    swap_compute_instr clmmLibModel false true true 0 5 0 (sqrtPriceAtTickRaw 11)
      zeroLiquidityPool [allInitTickArray]
      = .ok (0, ([0] : List Int), 11) ∧ 10 < 11 := by
  exact ⟨by decide, by decide⟩

/-- Witness for C1 (amended): the eleven-step run satisfies the `≤ 11`
cap, and a loop re-entered at `loop_count = 11` with the continuation
condition still true errors with "loop_count limit". -/
theorem swap_compute_loop_cap_eleven_witness :
    (11 : Nat) ≤ 11 ∧
    swapLoopAux clmmLibModel false true 0 1 (2 ^ 64 + 1) 0 1
      { amount_specified_remaining := 5, amount_calculated := 0,
        sqrt_price_x64 := 2 ^ 64, tick := 0, liquidity := 0 }
      { start_tick_index := 0, ticks := [] } [] true [] 11
      = .error (.msg "loop_count limit") := by
  refine ⟨swap_compute_loop_cap_eleven.1 clmmLibModel false true true 0 5 0
      (sqrtPriceAtTickRaw 11) zeroLiquidityPool [allInitTickArray] 0 [0] 11 (by decide), ?_⟩
  exact swap_compute_loop_cap_eleven.2 clmmLibModel false true 0 1 (2 ^ 64 + 1) 0 0
    { amount_specified_remaining := 5, amount_calculated := 0,
      sqrt_price_x64 := 2 ^ 64, tick := 0, liquidity := 0 }
    { start_tick_index := 0, ticks := [] } [] true [] (by decide)

lemma bitlenAux_zero (f : Nat) : bitlenAux f 0 = 0 := by
  cases f <;> simp [bitlenAux]

lemma bitlenAux_spec : ∀ f b, b < 2 ^ f → b ≠ 0 →
    2 ^ (bitlenAux f b - 1) ≤ b ∧ b < 2 ^ bitlenAux f b := by
  intro f
  induction f with
  | zero => intro b hb hb0; omega
  | succ f ih =>
    intro b hb hb0
    rw [bitlenAux, if_neg hb0]
    rcases Nat.eq_zero_or_pos (b / 2) with h2 | h2
    · have hb1 : b = 1 := by omega
      subst hb1
      rw [h2, bitlenAux_zero]
      omega
    · have hlt : b / 2 < 2 ^ f := by
        rw [Nat.div_lt_iff_lt_mul (by omega)]
        calc b < 2 ^ (f + 1) := hb
          _ = 2 ^ f * 2 := by rw [Nat.pow_succ]
      obtain ⟨hl, hr⟩ := ih (b / 2) hlt (by omega)
      set k := bitlenAux f (b / 2) with hk
      have hk1 : 1 ≤ k := by
        by_contra hc
        have : k = 0 := by omega
        rw [this] at hr
        omega
      have hksimp : k + 1 - 1 = k := by omega
      rw [hksimp]
      constructor
      · have : 2 ^ k ≤ 2 * (b / 2) := by
          calc 2 ^ k = 2 * 2 ^ (k - 1) := by
                rw [← Nat.pow_succ']
                congr 1
                omega
            _ ≤ 2 * (b / 2) := by omega
        omega
      · have : b < 2 * (b / 2) + 2 := by omega
        calc b < 2 * (b / 2) + 2 := this
          _ ≤ 2 * (2 ^ k - 1) + 2 := by omega
          _ ≤ 2 ^ (k + 1) := by
              rw [Nat.pow_succ]
              omega

lemma bitlenAux_eq_of_bounds {f b k : Nat} (hf : b < 2 ^ f)
    (h1 : 2 ^ k ≤ b) (h2 : b < 2 ^ (k + 1)) : bitlenAux f b = k + 1 := by
  have hb0 : b ≠ 0 := by
    have := Nat.one_le_two_pow (n := k)
    omega
  obtain ⟨hl, hr⟩ := bitlenAux_spec f b hf hb0
  set m := bitlenAux f b with hm
  have hm1 : 1 ≤ m := by
    by_contra hc
    have : m = 0 := by omega
    rw [this] at hr
    omega
  by_contra hne
  rcases Nat.lt_or_ge m (k + 1) with hlt | hge
  · have : 2 ^ m ≤ 2 ^ k := Nat.pow_le_pow_right (by omega) (by omega)
    omega
  · have hgt : k + 1 < m + 1 := by omega
    have : 2 ^ (k + 1) ≤ 2 ^ (m - 1) := Nat.pow_le_pow_right (by omega) (by omega)
    omega

lemma testBit_of_bounds {b k : Nat} (h1 : 2 ^ k ≤ b) (h2 : b < 2 ^ (k + 1)) :
    b.testBit k = true := by
  rw [Nat.testBit_to_div_mod]
  have hdiv : b / 2 ^ k = 1 := by
    have hle : 1 ≤ b / 2 ^ k := (Nat.le_div_iff_mul_le (Nat.pos_pow_of_pos k (by omega))).mpr (by omega)
    have hlt : b / 2 ^ k < 2 := by
      rw [Nat.div_lt_iff_lt_mul (Nat.pos_pow_of_pos k (by omega))]
      rw [Nat.pow_succ] at h2
      omega
    omega
  rw [hdiv]
  rfl

lemma tzAux_spec : ∀ f b, b ≠ 0 → b < 2 ^ f →
    b.testBit (tzAux f b) = true ∧ ∀ j, j < tzAux f b → b.testBit j = false := by
  intro f
  induction f with
  | zero => intro b hb0 hb; omega
  | succ f ih =>
    intro b hb0 hb
    rw [tzAux]
    by_cases hodd : b % 2 = 1
    · rw [if_pos hodd]
      refine ⟨?_, by omega⟩
      rw [Nat.testBit_zero]
      simp [hodd]
    · rw [if_neg hodd]
      have hb2 : b / 2 ≠ 0 := by omega
      have hlt : b / 2 < 2 ^ f := by
        rw [Nat.div_lt_iff_lt_mul (by omega)]
        calc b < 2 ^ (f + 1) := hb
          _ = 2 ^ f * 2 := by rw [Nat.pow_succ]
      obtain ⟨h1, h2⟩ := ih (b / 2) hb2 hlt
      constructor
      · rw [Nat.testBit_succ]
        exact h1
      · intro j hj
        cases j with
        | zero =>
          rw [Nat.testBit_zero]
          simp [hodd]
        | succ j =>
          rw [Nat.testBit_succ]
          exact h2 j (by omega)

lemma mod_two_pow_eq_zero_iff {b k : Nat} :
    b % 2 ^ k = 0 ↔ ∀ j, j < k → b.testBit j = false := by
  constructor
  · intro h j hj
    have := Nat.testBit_mod_two_pow b k j
    rw [h, Nat.zero_testBit] at this
    simp [hj] at this
    exact this
  · intro h
    apply Nat.eq_of_testBit_eq
    intro i
    rw [Nat.testBit_mod_two_pow, Nat.zero_testBit]
    by_cases hi : i < k
    · simp [hi, h i hi]
    · simp [hi]

lemma shiftLeft_mod_eq {b o : Nat} (ho : o < 512) (_hb : b < U512_SIZE) :
    (b <<< (511 - o)) % U512_SIZE = (b % 2 ^ (o + 1)) * 2 ^ (511 - o) := by
  rw [Nat.shiftLeft_eq]
  have hsplit : b = 2 ^ (o + 1) * (b / 2 ^ (o + 1)) + b % 2 ^ (o + 1) :=
    (Nat.div_add_mod b (2 ^ (o + 1))).symm
  have hexp : o + 1 + (511 - o) = 512 := by omega
  have hmul : b * 2 ^ (511 - o)
      = b % 2 ^ (o + 1) * 2 ^ (511 - o) + b / 2 ^ (o + 1) * 2 ^ 512 := by
    calc b * 2 ^ (511 - o)
        = (2 ^ (o + 1) * (b / 2 ^ (o + 1)) + b % 2 ^ (o + 1)) * 2 ^ (511 - o) := by
          rw [← hsplit]
      _ = b % 2 ^ (o + 1) * 2 ^ (511 - o)
          + b / 2 ^ (o + 1) * (2 ^ (o + 1) * 2 ^ (511 - o)) := by ring
      _ = b % 2 ^ (o + 1) * 2 ^ (511 - o) + b / 2 ^ (o + 1) * 2 ^ 512 := by
          rw [← Nat.pow_add, hexp]
  rw [hmul, U512_SIZE]
  rw [Nat.add_mul_mod_self_right]
  apply Nat.mod_eq_of_lt
  have hlt : b % 2 ^ (o + 1) < 2 ^ (o + 1) := Nat.mod_lt _ (Nat.pos_pow_of_pos _ (by omega))
  calc b % 2 ^ (o + 1) * 2 ^ (511 - o) < 2 ^ (o + 1) * 2 ^ (511 - o) := by
        exact Nat.mul_lt_mul_of_lt_of_le hlt (le_refl _) (Nat.pos_pow_of_pos _ (by omega))
    _ = 2 ^ 512 := by rw [← Nat.pow_add, hexp]

lemma tick_array_offset_in_bitmap_lt {start : Int} {spacing : Nat} (hsp : 0 < spacing)
    (hdvd : TickArrayState.tick_count spacing ∣ start) :
    tick_array_offset_in_bitmap start spacing < 512 := by
  have hcnt : TickArrayState.tick_count spacing = ((60 * spacing : Nat) : Int) := by
    simp only [TickArrayState.tick_count, TICK_ARRAY_SIZE]
    push_cast
    ring
  have hcntN : (TickArrayState.tick_count spacing).toNat = 60 * spacing := by
    rw [hcnt, Int.toNat_natCast]
  have hmaxN : (max_tick_in_tickarray_bitmap spacing).toNat = 512 * (60 * spacing) := by
    have hme : max_tick_in_tickarray_bitmap spacing = ((512 * (60 * spacing) : Nat) : Int) := by
      simp only [max_tick_in_tickarray_bitmap, TICK_ARRAY_BITMAP_SIZE, hcnt]
      push_cast
      ring
    rw [hme, Int.toNat_natCast]
  have hdvdN : 60 * spacing ∣ start.natAbs := by
    have h2 := Int.natAbs_dvd_natAbs.mpr hdvd
    rw [hcnt, Int.natAbs_ofNat] at h2
    exact h2
  simp only [tick_array_offset_in_bitmap, hcntN, hmaxN]
  have hpos : 0 < 60 * spacing := by omega
  have hmod : start.natAbs % (512 * (60 * spacing)) < 512 * (60 * spacing) :=
    Nat.mod_lt _ (by omega)
  have hdm : 60 * spacing ∣ start.natAbs % (512 * (60 * spacing)) :=
    (Nat.dvd_mod_iff (Dvd.intro_left 512 rfl)).mpr hdvdN
  split_ifs with h
  · have hne := h.2
    have hge : 60 * spacing ≤ start.natAbs % (512 * (60 * spacing)) :=
      Nat.le_of_dvd (by omega) hdm
    have h1 : 1 ≤ start.natAbs % (512 * (60 * spacing)) / (60 * spacing) :=
      (Nat.le_div_iff_mul_le hpos).mpr (by omega)
    simp only [TICK_ARRAY_BITMAP_SIZE]
    omega
  · exact (Nat.div_lt_iff_lt_mul hpos).mpr (by omega)

/-- C6: for every 512-bit bitmap bank, valid tick-array start index,
spacing and direction, `next_initialized_tick_array_in_bitmap` with no
set bit remaining in the scan direction returns `found = false` with
the bank's boundary-most start index in that direction (never an
error); when a set bit remains it returns `found = true` with the start
index of the nearest initialized tick array in the scan direction
(computed via `leading_zeros` after a left shift for the decreasing
direction, `trailing_zeros` after a right shift for the increasing
one). -/
theorem next_initialized_tick_array_in_bitmap_spec (bitmap : Nat) (start : Int)
    (spacing : Nat) (hb : bitmap < U512_SIZE) (hsp : 0 < spacing)
    (hdvd : TickArrayState.tick_count spacing ∣ start) :
    ((∀ j, j ≤ tick_array_offset_in_bitmap start spacing → bitmap.testBit j = false) →
      next_initialized_tick_array_in_bitmap bitmap start spacing true
        = (false, (get_bitmap_tick_boundary start spacing).1)) ∧
    (∀ jm, jm ≤ tick_array_offset_in_bitmap start spacing → bitmap.testBit jm = true →
      (∀ j, jm < j → j ≤ tick_array_offset_in_bitmap start spacing →
        bitmap.testBit j = false) →
      next_initialized_tick_array_in_bitmap bitmap start spacing true
        = (true, start - ((tick_array_offset_in_bitmap start spacing - jm : Nat) : Int)
            * TickArrayState.tick_count spacing)) ∧
    ((∀ j, tick_array_offset_in_bitmap start spacing ≤ j → bitmap.testBit j = false) →
      next_initialized_tick_array_in_bitmap bitmap start spacing false
        = (false, (get_bitmap_tick_boundary start spacing).2
            - TickArrayState.tick_count spacing)) ∧
    (∀ jm, tick_array_offset_in_bitmap start spacing ≤ jm → bitmap.testBit jm = true →
      (∀ j, tick_array_offset_in_bitmap start spacing ≤ j → j < jm →
        bitmap.testBit j = false) →
      next_initialized_tick_array_in_bitmap bitmap start spacing false
        = (true, start + ((jm - tick_array_offset_in_bitmap start spacing : Nat) : Int)
            * TickArrayState.tick_count spacing)) := by
  set o := tick_array_offset_in_bitmap start spacing with ho_def
  have ho : o < 512 := tick_array_offset_in_bitmap_lt hsp hdvd
  have hshift : (bitmap <<< (TICK_ARRAY_BITMAP_SIZE - 1 - o)) % U512_SIZE
      = (bitmap % 2 ^ (o + 1)) * 2 ^ (511 - o) := by
    have h1 : TICK_ARRAY_BITMAP_SIZE - 1 - o = 511 - o := by
      norm_num [TICK_ARRAY_BITMAP_SIZE]
    rw [h1]
    exact shiftLeft_mod_eq ho hb
  refine ⟨?_, ?_, ?_, ?_⟩
  · intro hnone
    have hm0 : bitmap % 2 ^ (o + 1) = 0 :=
      mod_two_pow_eq_zero_iff.mpr (fun j hj => hnone j (by omega))
    simp only [next_initialized_tick_array_in_bitmap, if_true, ← ho_def, hshift, hm0,
      Nat.zero_mul, if_pos rfl, eq_self_iff_true]
  · intro jm hjm hbit hnone
    have hppos : 0 < 2 ^ (o + 1) := Nat.pos_pow_of_pos _ (by omega)
    have hmbit : (bitmap % 2 ^ (o + 1)).testBit jm = true := by
      rw [Nat.testBit_mod_two_pow]
      have : jm < o + 1 := by omega
      simp [this, hbit]
    have hm0 : bitmap % 2 ^ (o + 1) ≠ 0 := by
      intro h
      rw [h, Nat.zero_testBit] at hmbit
      exact Bool.false_ne_true hmbit
    have hmlt : bitmap % 2 ^ (o + 1) < 2 ^ (o + 1) := Nat.mod_lt _ hppos
    have hmlt512 : bitmap % 2 ^ (o + 1) < 2 ^ 512 :=
      lt_of_lt_of_le hmlt (Nat.pow_le_pow_right (by omega) (by omega))
    obtain ⟨hkl, hkr⟩ := bitlenAux_spec 512 _ hmlt512 hm0
    set k := bitlenAux 512 (bitmap % 2 ^ (o + 1)) with hk_def
    have hk1 : 1 ≤ k := by
      by_contra hc
      have hzero : k = 0 := by omega
      rw [hzero, Nat.pow_zero] at hkr
      omega
    have hhigh : (bitmap % 2 ^ (o + 1)).testBit (k - 1) = true := by
      apply testBit_of_bounds hkl
      have : k - 1 + 1 = k := by omega
      rw [this]
      exact hkr
    have hko : k - 1 ≤ o := by
      have hlt : 2 ^ (k - 1) < 2 ^ (o + 1) := lt_of_le_of_lt hkl hmlt
      have := (Nat.pow_lt_pow_iff_right (a := 2) (by omega)).mp hlt
      omega
    have hbh : bitmap.testBit (k - 1) = true := by
      rw [Nat.testBit_mod_two_pow] at hhigh
      have hko1 : k - 1 < o + 1 := by omega
      simpa [hko1] using hhigh
    have hkeq : k - 1 = jm := by
      rcases Nat.lt_trichotomy (k - 1) jm with hlt | heq | hgt
      · exfalso
        have hge : jm ≥ k := by omega
        have : bitmap % 2 ^ (o + 1) < 2 ^ jm :=
          lt_of_lt_of_le hkr (Nat.pow_le_pow_right (by omega) hge)
        rw [Nat.testBit_lt_two_pow this] at hmbit
        exact Bool.false_ne_true hmbit
      · exact heq
      · exfalso
        have := hnone (k - 1) hgt hko
        rw [this] at hbh
        exact Bool.false_ne_true hbh
    have hks : k + (511 - o) ≤ 512 := by omega
    have hlz : u512_leading_zeros ((bitmap % 2 ^ (o + 1)) * 2 ^ (511 - o)) = o - jm := by
      have hlow : 2 ^ (k - 1 + (511 - o)) ≤ (bitmap % 2 ^ (o + 1)) * 2 ^ (511 - o) := by
        rw [Nat.pow_add]
        exact Nat.mul_le_mul_right _ hkl
      have hhi : (bitmap % 2 ^ (o + 1)) * 2 ^ (511 - o) < 2 ^ (k - 1 + (511 - o) + 1) := by
        have he : k - 1 + (511 - o) + 1 = k + (511 - o) := by omega
        rw [he, Nat.pow_add 2 k (511 - o)]
        have hpow : 0 < 2 ^ (511 - o) := Nat.pos_pow_of_pos _ (by omega)
        exact Nat.mul_lt_mul_of_lt_of_le hkr (le_refl _) hpow
      have hfit : (bitmap % 2 ^ (o + 1)) * 2 ^ (511 - o) < 2 ^ 512 :=
        lt_of_lt_of_le hhi (Nat.pow_le_pow_right (by omega) (by omega))
      have hblen := bitlenAux_eq_of_bounds hfit hlow hhi
      rw [u512_leading_zeros, hblen]
      omega
    have hnz : (bitmap % 2 ^ (o + 1)) * 2 ^ (511 - o) ≠ 0 :=
      Nat.mul_ne_zero hm0 (Nat.pos_iff_ne_zero.mp (Nat.pos_pow_of_pos _ (by omega)))
    simp only [next_initialized_tick_array_in_bitmap, if_true, ← ho_def, hshift,
      if_neg hnz, hlz]
  · intro hnone
    have hz : bitmap >>> o = 0 := by
      apply Nat.eq_of_testBit_eq
      intro i
      rw [Nat.testBit_shiftRight, Nat.zero_testBit]
      exact hnone (o + i) (by omega)
    simp only [next_initialized_tick_array_in_bitmap, Bool.false_eq_true, if_false,
      ← ho_def, hz, if_pos rfl, eq_self_iff_true, if_true]
  · intro jm hjm hbit hnone
    have hsbit : (bitmap >>> o).testBit (jm - o) = true := by
      rw [Nat.testBit_shiftRight]
      have he : o + (jm - o) = jm := by omega
      rw [he]
      exact hbit
    have hnz : bitmap >>> o ≠ 0 := by
      intro h
      rw [h, Nat.zero_testBit] at hsbit
      exact Bool.false_ne_true hsbit
    have hlt512 : bitmap >>> o < 2 ^ 512 := by
      rw [Nat.shiftRight_eq_div_pow]
      exact lt_of_le_of_lt (Nat.div_le_self _ _) hb
    obtain ⟨ht1, ht2⟩ := tzAux_spec 512 _ hnz hlt512
    have htz : tzAux 512 (bitmap >>> o) = jm - o := by
      rcases Nat.lt_trichotomy (tzAux 512 (bitmap >>> o)) (jm - o) with hlt | heq | hgt
      · exfalso
        rw [Nat.testBit_shiftRight] at ht1
        have := hnone (o + tzAux 512 (bitmap >>> o)) (by omega) (by omega)
        rw [this] at ht1
        exact Bool.false_ne_true ht1
      · exact heq
      · exfalso
        have := ht2 (jm - o) hgt
        rw [this] at hsbit
        exact Bool.false_ne_true hsbit
    simp only [next_initialized_tick_array_in_bitmap, Bool.false_eq_true, if_false,
      ← ho_def, if_neg hnz, u512_trailing_zeros, htz]

/-- Witness for C6: scanning upward from start index `6000` (spacing 1,
bit offset 100) over a bank with exactly bit 100 set finds start index
`6000`; scanning downward over an empty bank reports `found = false`
with the bank's lower boundary. -/
theorem next_initialized_tick_array_in_bitmap_spec_witness :
    next_initialized_tick_array_in_bitmap (2 ^ 100) 6000 1 false = (true, 6000) ∧
    next_initialized_tick_array_in_bitmap 0 6000 1 true
      = (false, (get_bitmap_tick_boundary 6000 1).1) := by
  have ho : tick_array_offset_in_bitmap 6000 1 = 100 := by decide
  have hdvd : TickArrayState.tick_count 1 ∣ (6000 : Int) :=
    Dvd.intro 100 (by norm_num [TickArrayState.tick_count, TICK_ARRAY_SIZE])
  constructor
  · have h := (next_initialized_tick_array_in_bitmap_spec (2 ^ 100) 6000 1 (by decide)
      (by decide) hdvd).2.2.2 100 (by rw [ho]) (by decide)
      (fun j hj1 hj2 => by rw [ho] at hj1; omega)
    rw [ho] at h
    simpa [TickArrayState.tick_count, TICK_ARRAY_SIZE] using h
  · exact (next_initialized_tick_array_in_bitmap_spec 0 6000 1 (by decide) (by decide)
      hdvd).1 (fun j _ => Nat.zero_testBit j)
